import Mathlib

/-!
Verification development for the micro-remittance blockchain
(`blockchain.py`, `block.py`, `transaction.py`, `config.py`).

The Python source is shallowly embedded: Python `int` becomes `Int`,
strings become `String`, dictionaries become insertion-ordered association
lists, code that can raise returns `Except PyErr`, and code whose failure
mode is `return False` returns `Option`/`Bool`.  SHA-256 and ECDSA
signature verification are external capabilities of the program (spec §6),
so they are parameters of the embedding (the `Ctx` structure); every
theorem either quantifies over them or instantiates them with explicit
concrete functions.
-/

namespace MicroRemit

/-- Python exceptions that the embedded code can raise. `fuelExhausted` is
not a Python exception: it models a proof-of-work search that has not yet
terminated within the fuel given to the embedding of the unbounded
`while True` loop. -/
inductive PyErr where
  | unboundLocalError
  | typeError
  | keyError
  | indexError
  | valueError
  | fuelExhausted
deriving Repr, DecidableEq

/-! ## Configuration constants (`config.py`) -/

/-- `config.py`: number of leading zeros for PoW. -/
def DIFFICULTY : Nat := 4

/-- `config.py`: block reward in smallest units. -/
def BLOCK_REWARD : Int := 50000000

/-- Modelled from the spec: `blockchain.py` imports `REWARD_SENDER` from
`config`, but `config.py` in the repository does not define it.  The spec
(§4.6) describes it as a fixed reward-issuer sentinel address recognised by
exact string comparison; we model it as a fixed string. -/
def REWARD_SENDER : String := "REWARD_SENDER"

/-- Modelled from the spec: `blockchain.py` imports `REWARD_SIGNATURE` from
`config`, but `config.py` in the repository does not define it.  The spec
(§4.6) describes it as a fixed sentinel signature; we model it as a fixed
string. -/
def REWARD_SIGNATURE : String := "REWARD_SIGNATURE"

/-- `"0" * DIFFICULTY`, the PoW target consulted by mining and validation. -/
def powTarget : String := String.mk (List.replicate DIFFICULTY '0')

/-! ## Data model (`transaction.py`, `blockchain.py`, `block.py`) -/

/-- The loosely-typed `payload` dictionary of a transaction.  Only the four
keys the program ever reads are modelled; a `none` field means the key is
absent from the dictionary. -/
structure Payload where
  id : Option String := none
  recipient : Option String := none
  release_hash : Option String := none
  release_code : Option String := none
deriving Repr, DecidableEq

/-- `transaction.py`: the `Transaction` dataclass.  `payload := none`
models both a missing payload and a non-dict payload. -/
structure Transaction where
  tx_type : String
  sender : String
  recipient : Option String
  amount : Int
  fee : Int
  nonce : Int
  payload : Option Payload := none
  signature : Option String := none
deriving Repr, DecidableEq

/-- `blockchain.py` lines 42-49: the `Remittance` dataclass. -/
structure Remittance where
  id : String
  sender : String
  recipient : String
  amount : Int
  release_hash : String
  released : Bool := false
deriving Repr, DecidableEq

/-- `block.py`: the `Block` dataclass.  Python's float `timestamp` is
modelled as an `Int`; it is only ever fed into the abstract hash, so no
claim depends on its representation. -/
structure Block where
  index : Int
  previous_hash : String
  timestamp : Int := 0
  transactions : List Transaction := []
  nonce : Int := 0
  merkle_root : String := ""
  hash : String := ""
deriving Repr, DecidableEq

/-- `{"balance": int, "nonce": int, "stake": int}` per-address record. -/
structure Account where
  balance : Int
  nonce : Int
  stake : Int
deriving Repr, DecidableEq

/-- The lazily-created all-zero account. -/
def Account.zero : Account := { balance := 0, nonce := 0, stake := 0 }

/-- Python dict keys for the accounts table.  `tx.recipient` may be `None`
and `self._get_acct(tx.recipient)` then uses `None` itself as a key, so
the key type is `Option String`. -/
abbrev Addr := Option String

/-- The accounts dict, as an insertion-ordered association list. -/
abbrev Accounts := List (Addr × Account)

/-- The remits dict, as an insertion-ordered association list. -/
abbrev Remits := List (String × Remittance)

/-! ## Association-list operations mirroring Python dict behaviour -/

/-- Dict lookup read through the total-map view: a missing address reads
as the all-zero account (the view under which `_get_acct` is a pure read). -/
def readAcct : Accounts → Addr → Account
  | [], _ => Account.zero
  | p :: rest, a => if p.1 = a then p.2 else readAcct rest a

/-- `addr in dict`. -/
def hasKeyA : Accounts → Addr → Bool
  | [], _ => false
  | p :: rest, a => if p.1 = a then true else hasKeyA rest a

/-- `dict.setdefault(addr, zero)`: appends a fresh zero entry iff absent
(`Blockchain._get_acct`). -/
def ensureAcct (m : Accounts) (a : Addr) : Accounts :=
  if hasKeyA m a then m else m ++ [(a, Account.zero)]

/-- Overwrite the value stored at an existing key, keeping its position. -/
def writeAcct : Accounts → Addr → Account → Accounts
  | [], _, _ => []
  | p :: rest, a, v => (if p.1 = a then (p.1, v) else p) :: writeAcct rest a v

/-- In-place mutation of the (created-if-absent) account dict entry, the
shape of every `self._get_acct(x)[field] op= v` statement. -/
def updAcct (m : Accounts) (a : Addr) (f : Account → Account) : Accounts :=
  writeAcct (ensureAcct m a) a (f (readAcct m a))

/-- `remits.get(rid)`. -/
def lookupRemit : Remits → String → Option Remittance
  | [], _ => none
  | p :: rest, rid => if p.1 = rid then some p.2 else lookupRemit rest rid

/-- `rid in remits`. -/
def hasRemit : Remits → String → Bool
  | [], _ => false
  | p :: rest, rid => if p.1 = rid then true else hasRemit rest rid

/-- `remits[rid] = r`: overwrite in place if present, else append. -/
def writeRemit (m : Remits) (rid : String) (r : Remittance) : Remits :=
  if hasRemit m rid then
    m.map (fun p => if p.1 = rid then (p.1, r) else p)
  else m ++ [(rid, r)]

/-! ## External capabilities (spec §6) -/

/-- The two cryptographic capabilities the core consumes: SHA-256 as a hex
digest of a byte string (modelled `String → String`) and ECDSA signature
verification of a transaction (`Transaction.verify`).  The code treats
both as black boxes, so the embedding is parametric in them. -/
structure Ctx where
  sha : String → String
  verify : Transaction → Bool

/-! ## Canonical encoding and hashing (`transaction.py`, `block.py`)

The Python code serialises with `json.dumps(..., sort_keys=True,
separators=(",", ":"))` and feeds the bytes to SHA-256.  Since SHA-256 is
an abstract parameter here, only the fact that a hash is `sha` of a
deterministic encoding matters; the encodings below are deterministic
stand-ins for the sorted-keys JSON byte strings. -/

/-- Encoding of an optional string field (`null` for `None`). -/
def optStr : Option String → String
  | none => "null"
  | some s => s

/-- Deterministic encoding of a payload dictionary. -/
def payloadStr : Option Payload → String
  | none => "null"
  | some p =>
      "id:" ++ optStr p.id ++ ",recipient:" ++ optStr p.recipient ++
      ",release_hash:" ++ optStr p.release_hash ++ ",release_code:" ++ optStr p.release_code

/-- `Transaction._body`: the canonical encoding of every field except the
signature. -/
def txBody (tx : Transaction) : String :=
  "amount:" ++ toString tx.amount ++ ",fee:" ++ toString tx.fee ++
  ",nonce:" ++ toString tx.nonce ++ ",payload:" ++ payloadStr tx.payload ++
  ",recipient:" ++ optStr tx.recipient ++ ",sender:" ++ tx.sender ++
  ",tx_type:" ++ tx.tx_type

/-- `Transaction.hash`: SHA-256 hex digest of the canonical body. -/
def txHash (ctx : Ctx) (tx : Transaction) : String :=
  ctx.sha (txBody tx)

/-- One pairing pass of the Merkle layer loop (`block.py` lines 17-22):
adjacent hashes are concatenated and hashed; a trailing odd element is
duplicated (`layer.append(layer[-1])`) before pairing, which is exactly
hashing it with itself. -/
def pairUp (sha : String → String) : List String → List String
  | [] => []
  | [a] => [sha (a ++ a)]
  | a :: b :: rest => sha (a ++ b) :: pairUp sha rest

/-- The `while len(layer) > 1` loop of `merkle_root`.  The fuel argument
only bounds the number of loop iterations so the definition is total; each
pass at least halves the layer, so fuel `layer.length` always suffices for
the initial call. -/
def merkleLoop (sha : String → String) : Nat → List String → String
  | _, [h] => h
  | Nat.succ fuel, layer => merkleLoop sha fuel (pairUp sha layer)
  | 0, layer => sha (String.join layer)

/-- `block.py` lines 8-23, `merkle_root`: the empty input hashes the empty
byte string; otherwise layers are paired until one hash remains. -/
def merkle_root (sha : String → String) (tx_hashes : List String) : String :=
  match tx_hashes with
  | [] => sha ""
  | layer => merkleLoop sha layer.length layer

/-- Deterministic encoding of the block-header dict
`{"idx", "mrkl", "nonce", "prev", "ts"}` (sorted keys). -/
def headerStr (idx : Int) (mrkl : String) (nonce : Int) (prev : String) (ts : Int) : String :=
  "idx:" ++ toString idx ++ ",mrkl:" ++ mrkl ++ ",nonce:" ++ toString nonce ++
  ",prev:" ++ prev ++ ",ts:" ++ toString ts

/-- `Block.compute_hash`: recompute the Merkle root from the transactions
and hash the header fields. -/
def computeHash (ctx : Ctx) (b : Block) : String :=
  let root := merkle_root ctx.sha (b.transactions.map (txHash ctx))
  ctx.sha (headerStr b.index root b.nonce b.previous_hash b.timestamp)

/-- Python `str.startswith`, on the character lists of the strings. -/
def isPrefixChars : List Char → List Char → Bool
  | [], _ => true
  | _ :: _, [] => false
  | a :: as, b :: bs => if a = b then isPrefixChars as bs else false

/-- `s.startswith(pre)`. -/
def strStartsWith (s pre : String) : Bool :=
  isPrefixChars pre.data s.data

/-! ## Blockchain state and helpers (`blockchain.py`) -/

/-- The mutable fields of the `Blockchain` object, plus its two
construction-time mode flags. -/
structure BCState where
  chain : List Block
  pending : List Transaction
  accounts : Accounts
  remits : Remits
  last_signed : List (String × Int)
  use_pos : Bool
  enable_reward : Bool
deriving Repr, DecidableEq

/-- `Blockchain._is_reward_tx`: a reward transaction is a PAY whose sender
and signature equal the configured sentinels. -/
def isRewardTx (tx : Transaction) : Bool :=
  if tx.tx_type = "PAY" ∧ tx.sender = REWARD_SENDER ∧ tx.signature = some REWARD_SIGNATURE
  then true else false

/-- `Blockchain._total_fees`: sum of fees of the non-reward transactions. -/
def totalFees (txs : List Transaction) : Int :=
  (txs.filter (fun tx => !isRewardTx tx)).foldl (fun s tx => s + tx.fee) 0

/-- `Blockchain._validate_payload` (lines 88-105). -/
def validatePayload (tx : Transaction) : Bool :=
  if tx.tx_type = "PAY" then tx.recipient.isSome
  else if tx.tx_type = "OPEN_REMIT" then
    match tx.payload with
    | some p => p.id.isSome && p.recipient.isSome && p.release_hash.isSome
    | none => false
  else if tx.tx_type = "CLAIM_REMIT" then
    match tx.payload with
    | some p => p.id.isSome && p.release_code.isSome
    | none => false
  else true

/-- `Blockchain._validate_amount` (lines 107-111). -/
def validateAmount (tx : Transaction) : Bool :=
  if tx.tx_type = "PAY" ∨ tx.tx_type = "OPEN_REMIT" ∨ tx.tx_type = "STAKE" ∨ tx.tx_type = "UNSTAKE"
  then (if tx.amount > 0 then true else false)
  else (if tx.amount ≤ 0 then true else false)

/-- `Blockchain.create_genesis_block` (lines 132-135): an empty block at
index 0 with previous hash `"0"`, whose hash field is its computed hash. -/
def createGenesisBlock (ctx : Ctx) (ts : Int) : Block :=
  let g : Block := { index := 0, previous_hash := "0", timestamp := ts }
  { g with hash := computeHash ctx g }

/-- `Blockchain.__init__`: empty tables and the genesis chain. -/
def initState (ctx : Ctx) (usePos enableReward : Bool) (ts : Int) : BCState :=
  { chain := [createGenesisBlock ctx ts], pending := [], accounts := [], remits := [],
    last_signed := [], use_pos := usePos, enable_reward := enableReward }

/-! ## Mempool admission (`Blockchain.add_tx`, lines 141-175) -/

/-- `add_tx`: line 142 creates the sender's account entry before any check
(observable only through the raw dict, not through the total-map view);
then the type allow-list, signature, strict-sequential nonce and — for the
three debiting types — the funds check run in order, each rejecting with
`False`.  Acceptance appends to `pending` and advances the tracked nonce. -/
def addTx (ctx : Ctx) (st : BCState) (tx : Transaction) : Bool × BCState :=
  if ¬(tx.tx_type = "PAY" ∨ tx.tx_type = "OPEN_REMIT" ∨ tx.tx_type = "CLAIM_REMIT" ∨
       tx.tx_type = "STAKE" ∨ tx.tx_type = "UNSTAKE") then
    (false, { st with accounts := ensureAcct st.accounts (some tx.sender) })
  else if ctx.verify tx = false then
    (false, { st with accounts := ensureAcct st.accounts (some tx.sender) })
  else if tx.nonce ≠ (readAcct (ensureAcct st.accounts (some tx.sender)) (some tx.sender)).nonce + 1 then
    (false, { st with accounts := ensureAcct st.accounts (some tx.sender) })
  else if (tx.tx_type = "PAY" ∨ tx.tx_type = "OPEN_REMIT" ∨ tx.tx_type = "STAKE") ∧
          (readAcct (ensureAcct st.accounts (some tx.sender)) (some tx.sender)).balance < tx.amount + tx.fee then
    (false, { st with accounts := ensureAcct st.accounts (some tx.sender) })
  else
    (true, { st with
      pending := st.pending ++ [tx],
      accounts := updAcct (ensureAcct st.accounts (some tx.sender)) (some tx.sender)
                    (fun a => { a with nonce := a.nonce + 1 }) })

/-! ## Block applier (`Blockchain._apply_block`, lines 306-352) -/

/-- The loop body of `_apply_block` for one transaction.  Line 308 creates
the sender's account entry unconditionally.  Noteworthy source behaviour
translated verbatim: the PAY branch (line 312) compares `tx.sender` to the
string literal `" REWARD_SENDER"` — with a leading space — rather than to
the `REWARD_SENDER` constant; the STAKE branch (line 320) assigns
`sender["stake"] = tx.amount`, overwriting any existing stake; the
OPEN_REMIT branch (line 330) assigns `self.remits[rid]` unconditionally,
overwriting any remittance already stored under that id.  Subscripting a
missing payload raises (`TypeError` on `None`, `KeyError` on a missing
key), hence the `Except`. -/
def applyTx (ctx : Ctx) (acc : Accounts) (rem : Remits) (tx : Transaction) :
    Except PyErr (Accounts × Remits) :=
  let acc := ensureAcct acc (some tx.sender)
  if tx.tx_type = "PAY" then
    let acc :=
      if tx.sender ≠ " REWARD_SENDER" then
        updAcct acc (some tx.sender) (fun a => { a with balance := a.balance - (tx.amount + tx.fee) })
      else acc
    .ok (updAcct acc tx.recipient (fun a => { a with balance := a.balance + tx.amount }), rem)
  else if tx.tx_type = "STAKE" then
    .ok (updAcct acc (some tx.sender)
          (fun a => { a with balance := a.balance - tx.amount, stake := tx.amount }), rem)
  else if tx.tx_type = "UNSTAKE" then
    .ok (updAcct acc (some tx.sender)
          (fun a => { a with stake := a.stake - tx.amount, balance := a.balance + tx.amount }), rem)
  else if tx.tx_type = "OPEN_REMIT" then
    match tx.payload with
    | none => .error .typeError
    | some p =>
      match p.id with
      | none => .error .keyError
      | some rid =>
        match p.release_hash with
        | none => .error .keyError
        | some r_hash =>
          match p.recipient with
          | none => .error .keyError
          | some rcpt =>
            .ok (updAcct acc (some tx.sender)
                  (fun a => { a with balance := a.balance - (tx.amount + tx.fee) }),
                 writeRemit rem rid
                   { id := rid, sender := tx.sender, recipient := rcpt,
                     amount := tx.amount, release_hash := r_hash, released := false })
  else if tx.tx_type = "CLAIM_REMIT" then
    match tx.payload with
    | none => .error .typeError
    | some p =>
      match p.id with
      | none => .error .keyError
      | some rid =>
        match p.release_code with
        | none => .error .keyError
        | some code =>
          match lookupRemit rem rid with
          | some remit =>
            if remit.released = false ∧ ctx.sha code = remit.release_hash then
              .ok (updAcct acc (some remit.recipient)
                    (fun a => { a with balance := a.balance + remit.amount }),
                   writeRemit rem rid { remit with released := true })
            else .ok (acc, rem)
          | none => .ok (acc, rem)
  else .ok (acc, rem)

/-- `_apply_block`: fold the per-transaction effect over the block's
transactions in order. -/
def applyBlock (ctx : Ctx) (acc : Accounts) (rem : Remits) (blk : Block) :
    Except PyErr (Accounts × Remits) :=
  blk.transactions.foldlM (fun s tx => applyTx ctx s.1 s.2 tx) (acc, rem)

/-! ## Per-transaction replay validation (`Blockchain._validate_chain`,
loop body lines 508-570)

This is the validation-plus-effect applied to each transaction of each
block against the scratch state.  (In CPython this loop body is actually
unreachable — see `validateChain` below — but it is the replay semantics
the chain validator spells out, and what `replace_chain` is meant to use.)
`none` models `return False`. -/

/-- Lines 508-570: for non-reward transactions check payload shape, amount
sign, signature and strict nonce (advancing the scratch nonce); then apply
the per-type effect with immediate rejection on insufficient balance,
stake underflow or duplicate escrow id.  The STAKE branch (line 536)
accumulates: `sender["stake"] += tx.amount`. -/
def replayTx (ctx : Ctx) (acc : Accounts) (rem : Remits) (tx : Transaction) :
    Option (Accounts × Remits) :=
  if !isRewardTx tx && (!validatePayload tx || !validateAmount tx || !ctx.verify tx) then
    none
  else
    let acc := ensureAcct acc (some tx.sender)
    let nonceStep : Option Accounts :=
      if isRewardTx tx then some acc
      else if tx.nonce ≠ (readAcct acc (some tx.sender)).nonce + 1 then none
      else some (updAcct acc (some tx.sender) (fun a => { a with nonce := a.nonce + 1 }))
    match nonceStep with
    | none => none
    | some acc =>
      if tx.tx_type = "PAY" then
        let senderStep : Option Accounts :=
          if tx.sender ≠ REWARD_SENDER then
            if (readAcct acc (some tx.sender)).balance < tx.amount + tx.fee then none
            else some (updAcct acc (some tx.sender)
                        (fun a => { a with balance := a.balance - (tx.amount + tx.fee) }))
          else some acc
        match senderStep with
        | none => none
        | some acc =>
          some (updAcct acc tx.recipient (fun a => { a with balance := a.balance + tx.amount }), rem)
      else if tx.tx_type = "STAKE" then
        if (readAcct acc (some tx.sender)).balance < tx.amount then none
        else some (updAcct acc (some tx.sender)
                    (fun a => { a with balance := a.balance - tx.amount, stake := a.stake + tx.amount }), rem)
      else if tx.tx_type = "UNSTAKE" then
        if (readAcct acc (some tx.sender)).stake < tx.amount then none
        else some (updAcct acc (some tx.sender)
                    (fun a => { a with stake := a.stake - tx.amount, balance := a.balance + tx.amount }), rem)
      else if tx.tx_type = "OPEN_REMIT" then
        match tx.payload with
        | none => none
        | some p =>
          match p.id, p.recipient, p.release_hash with
          | some rid, some rcpt, some r_hash =>
            if hasRemit rem rid then none
            else
              let rem := writeRemit rem rid
                { id := rid, sender := tx.sender, recipient := rcpt,
                  amount := tx.amount, release_hash := r_hash, released := false }
              if (readAcct acc (some tx.sender)).balance < tx.amount + tx.fee then none
              else some (updAcct acc (some tx.sender)
                          (fun a => { a with balance := a.balance - (tx.amount + tx.fee) }), rem)
          | _, _, _ => none
      else if tx.tx_type = "CLAIM_REMIT" then
        match tx.payload with
        | none => none
        | some p =>
          match p.id, p.release_code with
          | some rid, some code =>
            match lookupRemit rem rid with
            | some remit =>
              if remit.released = false ∧ ctx.sha code = remit.release_hash then
                some (updAcct acc (some remit.recipient)
                       (fun a => { a with balance := a.balance + remit.amount }),
                      writeRemit rem rid { remit with released := true })
              else some (acc, rem)
            | none => some (acc, rem)
          | _, _ => none
      else some (acc, rem)

/-- Replay a transaction list (the inner loop of `_validate_chain`) on a
scratch state, failing to `none` on the first rejected transaction. -/
def replayTxs (ctx : Ctx) (acc : Accounts) (rem : Remits) (txs : List Transaction) :
    Option (Accounts × Remits) :=
  txs.foldlM (fun s tx => replayTx ctx s.1 s.2 tx) (acc, rem)

/-! ## Full-chain validation as executed (`_validate_chain`, lines 464-571)

Line 502 of the source reads
`merkle_root = blk.merkle_root or merkle_root(...)`.
Because of that assignment, `merkle_root` is a *local* variable throughout
the whole Python function body, so the earlier use on line 485
(`computed_merkle = merkle_root([tx.hash() for tx in blk.transactions])`)
raises `UnboundLocalError` on the first loop iteration.  Consequently the
function can only ever reach the per-block and per-transaction logic of
lines 485-570 by raising, and it returns normally only for chains of
length 0 or 1. -/

/-- The per-block loop of `_validate_chain`: linkage (line 481), PoW
difficulty (line 483), then the dead reference to the shadowed
`merkle_root` (line 485). -/
def validateChainLoop (usePos : Bool) : Block → List Block → Except PyErr Bool
  | _, [] => .ok true
  | prev, blk :: _ =>
    if blk.previous_hash ≠ prev.hash then .ok false
    else if usePos = false ∧ strStartsWith blk.hash powTarget = false then .ok false
    else .error .unboundLocalError

/-- `_validate_chain`: genesis checks (lines 471-477) then the loop. -/
def validateChain (ctx : Ctx) (usePos : Bool) (chain : List Block) : Except PyErr Bool :=
  match chain with
  | [] => .ok false
  | genesis :: rest =>
    if genesis.index ≠ 0 ∨ genesis.previous_hash ≠ "0" then .ok false
    else if genesis.hash ≠ computeHash ctx genesis then .ok false
    else validateChainLoop usePos genesis rest

/-- `Blockchain.is_valid_chain`. -/
def isValidChain (ctx : Ctx) (st : BCState) : Except PyErr Bool :=
  validateChain ctx st.use_pos st.chain

/-- `Blockchain.replace_chain` (lines 576-588): reject a non-longer
candidate, validate, and on success reset all live state and replay —
because line 586 iterates `self.chain[:1]` — only the genesis block. -/
def replaceChain (ctx : Ctx) (st : BCState) (newChain : List Block) :
    Except PyErr (Bool × BCState) :=
  if newChain.length ≤ st.chain.length then .ok (false, st)
  else
    match validateChain ctx st.use_pos newChain with
    | .error e => .error e
    | .ok false => .ok (false, st)
    | .ok true =>
      match (newChain.take 1).foldlM (fun s b => applyBlock ctx s.1 s.2 b)
              (([] : Accounts), ([] : Remits)) with
      | .error e => .error e
      | .ok (acc, rem) =>
        .ok (true, { st with chain := newChain, pending := [], last_signed := [],
                             accounts := acc, remits := rem })

/-! ## PoS validator selection and mining (`blockchain.py` lines 113-299) -/

/-- Value of a hexadecimal digit. -/
def hexDigit (c : Char) : Option Nat :=
  if '0' ≤ c ∧ c ≤ '9' then some (c.toNat - '0'.toNat)
  else if 'a' ≤ c ∧ c ≤ 'f' then some (c.toNat - 'a'.toNat + 10)
  else if 'A' ≤ c ∧ c ≤ 'F' then some (c.toNat - 'A'.toNat + 10)
  else none

/-- `int(s, 16)`: `none` models the `ValueError` raised on malformed input. -/
def hexVal (s : String) : Option Nat :=
  if s.data = [] then none
  else s.data.foldl
    (fun acc c =>
      match acc, hexDigit c with
      | some n, some d => some (16 * n + d)
      | _, _ => none)
    (some 0)

/-- The accumulating walk of the stake table (lines 121-125): adds each
stake to `upto` and returns the first address where `upto >= r`. -/
def walkStake (r : Int) : Int → List (Addr × Int) → Option Addr
  | _, [] => none
  | upto, (a, s) :: rest => if upto + s ≥ r then some a else walkStake r (upto + s) rest

/-- `Blockchain._select_pos_validator(seed_hex, accounts)` (lines 113-126):
stake-weighted deterministic choice; with zero total stake it falls back to
the reward sender; after the walk it falls back to the last entry. -/
def selectPosValidator (seed_hex : String) (accounts : Accounts) : Except PyErr Addr :=
  let entries := (accounts.filter (fun p => decide (p.2.stake > 0))).map (fun p => (p.1, p.2.stake))
  let total := (entries.map (fun e => e.2)).foldl (fun s x => s + x) 0
  if total = 0 then .ok (some REWARD_SENDER)
  else
    match hexVal seed_hex with
    | none => .error .valueError
    | some n =>
      match walkStake ((n : Int) % total) 0 entries with
      | some a => .ok a
      | none =>
        match entries.getLast? with
        | some e => .ok e.1
        | none => .error .indexError

/-- `Blockchain._mine_pow` (lines 181-187): recompute the hash and bump
the nonce until the difficulty prefix is met.  The fuel bounds the
otherwise unbounded `while True` search; `none` means the search is still
running after `fuel` attempts. -/
def minePow (ctx : Ctx) : Nat → Block → Option Block
  | 0, _ => none
  | Nat.succ fuel, blk =>
    let h := computeHash ctx blk
    if strStartsWith h powTarget then some { blk with hash := h }
    else minePow ctx fuel { blk with hash := h, nonce := blk.nonce + 1 }

/-- The synthetic reward transaction assembled by `mine_block`
(lines 247-255). -/
def rewardTxFor (minerAddr : String) (fees : Int) : Transaction :=
  { tx_type := "PAY", sender := REWARD_SENDER, recipient := some minerAddr,
    amount := BLOCK_REWARD + fees, fee := 0, nonce := 0, payload := none,
    signature := some REWARD_SIGNATURE }

/-- `Blockchain.mine_block` (lines 230-299).  With an empty pending queue
it returns `None` (no error).  Otherwise it assembles the block and then:
in PoS mode, line 271 calls `self._select_pos_validator()` *without* the
required `seed_hex` argument, which raises `TypeError` before any state is
touched (so the selection, slashing and PoS-reward code of lines 272-290
is unreachable); in PoW mode it searches for the difficulty prefix,
applies the block, clears `pending` and appends to the chain. -/
def mineBlock (ctx : Ctx) (fuel : Nat) (st : BCState) (minerAddr : String) (ts : Int) :
    Except PyErr (Option Block × BCState) :=
  if st.pending = [] then .ok (none, st)
  else
    let fees := totalFees st.pending
    let blockTxs := if st.enable_reward then st.pending ++ [rewardTxFor minerAddr fees] else st.pending
    match st.chain.getLast? with
    | none => .error .indexError
    | some last =>
      let blk : Block :=
        { index := last.index + 1, previous_hash := last.hash, timestamp := ts,
          transactions := blockTxs,
          merkle_root := merkle_root ctx.sha (blockTxs.map (txHash ctx)) }
      if st.use_pos then .error .typeError
      else
        match minePow ctx fuel blk with
        | none => .error .fuelExhausted
        | some mined =>
          match applyBlock ctx st.accounts st.remits mined with
          | .error e => .error e
          | .ok (acc, rem) =>
            .ok (some mined,
                 { st with accounts := acc, remits := rem, pending := [],
                           chain := st.chain ++ [mined] })

/-! ## Concrete instantiations used by counterexamples and witnesses

The two capabilities are abstract; the instantiations below are explicit
total functions standing in for them.  `allowAllVerify` models a signer
who holds a key for the sender address (ECDSA lets any key holder sign any
body); `zeroSha` models a hash oracle on the lucky path where the PoW
prefix is met at once. -/

/-- A concrete stand-in hash: prepends a marker character. -/
def cexSha (s : String) : String := "#" ++ s

/-- A concrete stand-in hash whose digests all meet the PoW target. -/
def zeroSha (_ : String) : String := "0000"

/-- Signature verification that accepts, as a real verifier does for
transactions properly signed with the sender's key. -/
def allowAllVerify (_ : Transaction) : Bool := true

/-- Context with the marker hash. -/
def cexCtx : Ctx := { sha := cexSha, verify := allowAllVerify }

/-- Context with the always-in-target hash, for exercising PoW mining. -/
def powCtx : Ctx := { sha := zeroSha, verify := allowAllVerify }

/-- Genesis block under `powCtx`. -/
def g0 : Block := createGenesisBlock powCtx 0

/-- A well-linked successor block of `g0` meeting the difficulty prefix. -/
def b1 : Block := { index := 1, previous_hash := g0.hash, timestamp := 0, hash := "0000" }

/-- Fresh PoW-mode node state. -/
def st0pow : BCState := initState powCtx false false 0

/-- Fresh PoS-mode node state. -/
def st0pos : BCState := initState powCtx true false 0

/-- A signed PAY used to populate the pending queue. -/
def dummyTx : Transaction :=
  { tx_type := "PAY", sender := "A", recipient := some "B", amount := 1, fee := 0,
    nonce := 1, signature := some "s" }

/-- PoS-mode state with a non-empty pending queue. -/
def stPos : BCState := { st0pos with pending := [dummyTx] }

/-- A signed CLAIM_REMIT for an id that is not in the remits table
(amount 0, so it passes `_validate_amount`; payload carries the two
required keys, so it passes `_validate_payload`). -/
def claimTx : Transaction :=
  { tx_type := "CLAIM_REMIT", sender := "A", recipient := none, amount := 0, fee := 0,
    nonce := 1, payload := some { id := some "X", release_code := some "c" },
    signature := some "sig" }

/-- A one-transaction block holding `claimTx`. -/
def claimBlock : Block := { index := 1, previous_hash := "p", transactions := [claimTx] }

/-- A signed STAKE of 5 units. -/
def stakeTx : Transaction :=
  { tx_type := "STAKE", sender := "A", recipient := none, amount := 5, fee := 0,
    nonce := 1, signature := some "s" }

/-- Account table in which the staker already holds stake 3. -/
def acc6 : Accounts := [(some "A", { balance := 10, nonce := 0, stake := 3 })]

/-- The reward transaction of a block paying 100 units to miner `A`. -/
def rewardPay : Transaction :=
  { tx_type := "PAY", sender := REWARD_SENDER, recipient := some "A", amount := 100,
    fee := 0, nonce := 0, signature := some REWARD_SIGNATURE }

/-- First escrow: id `X`, negative amount `-1` (admission never checks
amount signs), signed by `A` with nonce 1. -/
def open1 : Transaction :=
  { tx_type := "OPEN_REMIT", sender := "A", recipient := none, amount := -1, fee := 0,
    nonce := 1, payload := some { id := some "X", recipient := some "B", release_hash := some "h1" },
    signature := some "s1" }

/-- Second escrow reusing id `X`, nonce 2. -/
def open2 : Transaction :=
  { tx_type := "OPEN_REMIT", sender := "A", recipient := none, amount := -2, fee := 0,
    nonce := 2, payload := some { id := some "X", recipient := some "B", release_hash := some "h2" },
    signature := some "s2" }

/-- State after admitting `open1` on a fresh PoW node. -/
def st8a : BCState := (addTx powCtx st0pow open1).2

/-- State after mining the block carrying `open1`. -/
def st8b : BCState :=
  match mineBlock powCtx 1 st8a "M" 0 with
  | .ok (_, s) => s
  | .error _ => st8a

/-- State after admitting `open2`. -/
def st8c : BCState := (addTx powCtx st8b open2).2

/-- State after mining the block carrying `open2`. -/
def st8d : BCState :=
  match mineBlock powCtx 1 st8c "M" 0 with
  | .ok (_, s) => s
  | .error _ => st8c

/-- The remittance stored by `open1`. -/
def remitA : Remittance :=
  { id := "X", sender := "A", recipient := "B", amount := -1, release_hash := "h1" }

/-- The remittance stored by `open2`. -/
def remitB : Remittance :=
  { id := "X", sender := "A", recipient := "B", amount := -2, release_hash := "h2" }

/-- A signed PAY with a negative amount and the correct first nonce. -/
def negTx : Transaction :=
  { tx_type := "PAY", sender := "A", recipient := some "B", amount := -5, fee := 0,
    nonce := 1, signature := some "s" }

/-- Fresh state under `cexCtx`. -/
def st0cex : BCState := initState cexCtx false false 0

/-- Total extractor for the accounts component of `applyTx` (identity on
the input accounts if the applier raised); lets theorem statements name
the post-state without a binder. -/
def applyTxAcc (ctx : Ctx) (acc : Accounts) (rem : Remits) (tx : Transaction) : Accounts :=
  match applyTx ctx acc rem tx with
  | .ok r => r.1
  | .error _ => acc

deriving instance DecidableEq for Except

/-! ## Association-list lemmas -/

theorem readAcct_append_zero (m : Accounts) (a b : Addr) :
    readAcct (m ++ [(a, Account.zero)]) b = readAcct m b := by
  induction m with
  | nil => simp [readAcct]
  | cons p rest ih =>
      simp only [List.cons_append, readAcct]
      split <;> simp [ih]

theorem readAcct_ensure (m : Accounts) (a b : Addr) :
    readAcct (ensureAcct m a) b = readAcct m b := by
  unfold ensureAcct
  split
  · rfl
  · exact readAcct_append_zero m a b

theorem hasKeyA_append (m m' : Accounts) (a : Addr) :
    hasKeyA (m ++ m') a = (hasKeyA m a || hasKeyA m' a) := by
  induction m with
  | nil => simp [hasKeyA]
  | cons p rest ih =>
      simp only [List.cons_append, hasKeyA]
      split <;> simp [ih]

theorem hasKeyA_ensure_self (m : Accounts) (a : Addr) :
    hasKeyA (ensureAcct m a) a = true := by
  unfold ensureAcct
  split
  · assumption
  · simp [hasKeyA_append, hasKeyA]

theorem readAcct_write_self (m : Accounts) (a : Addr) (v : Account)
    (h : hasKeyA m a = true) : readAcct (writeAcct m a v) a = v := by
  induction m with
  | nil => simp [hasKeyA] at h
  | cons p rest ih =>
      simp only [writeAcct]
      by_cases hp : p.1 = a
      · simp [readAcct, hp]
      · simp only [hasKeyA] at h
        rw [if_neg hp] at h
        simp [readAcct, hp, ih h]

theorem readAcct_write_other (m : Accounts) (a b : Addr) (v : Account)
    (h : b ≠ a) : readAcct (writeAcct m a v) b = readAcct m b := by
  induction m with
  | nil => rfl
  | cons p rest ih =>
      by_cases hp : p.1 = a
      · subst hp
        have hb : ¬ (p.1 = b) := fun e => h e.symm
        simp [writeAcct, readAcct, hb, ih]
      · simp only [writeAcct, if_neg hp, readAcct]
        split
        · rfl
        · exact ih

theorem readAcct_upd_self (m : Accounts) (a : Addr) (f : Account → Account) :
    readAcct (updAcct m a f) a = f (readAcct m a) := by
  unfold updAcct
  exact readAcct_write_self _ _ _ (hasKeyA_ensure_self m a)

theorem readAcct_upd_other (m : Accounts) (a b : Addr) (f : Account → Account)
    (h : b ≠ a) : readAcct (updAcct m a f) b = readAcct m b := by
  unfold updAcct
  rw [readAcct_write_other _ _ _ _ h]
  exact readAcct_ensure m a b

theorem ensureAcct_of_has (m : Accounts) (a : Addr) (h : hasKeyA m a = true) :
    ensureAcct m a = m := by
  unfold ensureAcct
  rw [if_pos h]

theorem ensureAcct_idem (m : Accounts) (a : Addr) :
    ensureAcct (ensureAcct m a) a = ensureAcct m a :=
  ensureAcct_of_has _ _ (hasKeyA_ensure_self m a)

theorem readAcct_ensure_self (m : Accounts) (a : Addr) :
    readAcct (ensureAcct m a) a = readAcct m a := readAcct_ensure m a a

/-! ## Claim theorems -/

/-- Claim C1: the claim asserts that committing a chain block by block with
`_apply_block` from the all-zero state yields the same `(accounts, remits)`
as replaying the chain's transactions with the per-transaction effects of
`_validate_chain`.  It is false: for the one-block chain whose only
transaction is `claimTx` — a signed `CLAIM_REMIT` of amount 0 for an
unknown escrow id, which passes every per-transaction validation — the
replay state records the sender's advanced nonce while `_apply_block`
never touches nonces, so the two states differ.  (The applier also
overwrites stake where replay accumulates, and debits the reward sentinel
where replay skips it — see C6 and C7.) -/
theorem apply_block_replay_divergence :
    applyBlock cexCtx [] [] claimBlock
      = .ok ([(some "A", { balance := 0, nonce := 0, stake := 0 })], [])
    ∧ replayTxs cexCtx [] [] claimBlock.transactions
      = some ([(some "A", { balance := 0, nonce := 1, stake := 0 })], [])
    ∧ ({ balance := 0, nonce := 0, stake := 0 } : Account)
        ≠ { balance := 0, nonce := 1, stake := 0 } := by
  decide

/-- Claim C2: the claim asserts `replace_chain` returns a boolean decided
by length and validation and on success rebuilds the state from the whole
candidate chain.  It is false: on a fresh node (chain = genesis only) fed
the strictly longer, well-linked, difficulty-satisfying candidate
`[g0, b1]`, `replace_chain` raises `UnboundLocalError` out of
`_validate_chain` (the local shadowing of `merkle_root`) instead of
returning anything; moreover its success path replays only `chain[:1]`,
the genesis block. -/
theorem replace_chain_raises_on_longer_candidate :
    replaceChain powCtx st0pow [g0, b1] = .error .unboundLocalError := by
  decide

/-- Claim C3: the claim asserts `_validate_chain` is total and never
raises.  It is false: on the well-formed two-block chain `[g0, b1]`
(correct genesis, correct linkage, difficulty prefix met) it raises
`UnboundLocalError` at the first loop iteration, because the assignment on
source line 502 makes `merkle_root` a local variable that line 485 reads
before assignment. -/
theorem validate_chain_raises_unbound_local :
    validateChain powCtx false [g0, b1] = .error .unboundLocalError := by
  decide

/-- Claim C5: the claim asserts that in PoS mode a non-selected miner's
`mine_block` returns `None` without error and without state change.  It is
false: with a non-empty pending queue, every PoS `mine_block` call —
whoever the miner — raises `TypeError`, because line 271 calls
`self._select_pos_validator()` without the required `seed_hex` argument.
This contradicts the repository's own `test_pos_mining.py`. -/
theorem pos_mine_block_type_error :
    mineBlock powCtx 5 stPos "B" 0 = .error .typeError := by
  decide

/-- Claim C6: the claim asserts STAKE accumulates onto existing stake in
both the block applier and replay validation.  It is false for the
applier: for a sender with stake 3 staking 5, `_apply_block` executes
`sender["stake"] = tx.amount` and yields stake 5, while the replay effect
of `_validate_chain` executes `+=` and yields 8 = 3 + 5 as the claim
requires. -/
theorem stake_apply_overwrites_replay_accumulates :
    applyTx cexCtx acc6 [] stakeTx
      = .ok ([(some "A", { balance := 5, nonce := 0, stake := 5 })], [])
    ∧ replayTx cexCtx acc6 [] stakeTx
      = some ([(some "A", { balance := 5, nonce := 1, stake := 8 })], [])
    ∧ (5 : Int) ≠ 3 + 5 := by
  decide

/-- Claim C7: the claim asserts the PAY debit is skipped when the sender
is the reward sentinel.  It is false: `_apply_block` compares `tx.sender`
to the literal `" REWARD_SENDER"` (note the leading space) instead of the
`REWARD_SENDER` constant, so applying a reward transaction of amount 100
drives the sentinel's balance to -100 instead of leaving it at 0. -/
theorem apply_block_debits_reward_sentinel :
    applyTx cexCtx [] [] rewardPay
      = .ok ([(some REWARD_SENDER, { balance := -100, nonce := 0, stake := 0 }),
              (some "A", { balance := 100, nonce := 0, stake := 0 })], [])
    ∧ (-100 : Int) ≠ 0 := by
  decide

/-- Claim C8: the claim asserts a remittance id maps to at most one
contract forever under the node's own operations.  It is false on a
reachable run: starting from a fresh PoW node, `add_tx` admits `open1`
(`add_tx` never inspects payloads or the remits table), mining stores the
remittance `remitA` under id `X`; then `add_tx` admits `open2` with the
same id and mining *overwrites* id `X` with `remitB ≠ remitA`, because
`_apply_block` line 330 assigns `self.remits[rid]` unconditionally. -/
theorem open_remit_overwrite_reachable :
    (addTx powCtx st0pow open1).1 = true
    ∧ lookupRemit st8b.remits "X" = some remitA
    ∧ (addTx powCtx st8b open2).1 = true
    ∧ lookupRemit st8d.remits "X" = some remitB
    ∧ remitA ≠ remitB := by
  decide

/-- Claim C9, counterexample: the claim asserts `merkle_root([h])` is the
hash of `h + h`; in fact the `while len(layer) > 1` loop is skipped for a
singleton layer and `h` itself is returned, which differs from the digest
(here at hash `cexSha` and input `"a"`). -/
theorem merkle_root_singleton_not_rehashed :
    merkle_root cexSha ["a"] = "a" ∧ cexSha ("a" ++ "a") = "#aa"
    ∧ ("a" : String) ≠ "#aa" := by
  decide

/-- Claim C9, amended: for every hash function, `merkle_root([])` is the
digest of the empty byte string, and `merkle_root([h])` returns `h`
unchanged (self-duplication hashing applies only to odd layers of length
greater than one). -/
theorem merkle_root_empty_and_singleton (sha : String → String) (h : String) :
    merkle_root sha [] = sha "" ∧ merkle_root sha [h] = h :=
  ⟨rfl, rfl⟩

/-- Claim C4: `add_tx` accepts a transaction exactly when the type
allow-list, signature verification, strict-sequential nonce and — for the
three debiting types — the funds check all hold; on acceptance it appends
the transaction to the pending queue and advances only the sender's
tracked nonce; on rejection pending and the account map (read as a total
map, absence meaning the all-zero account) are unchanged; remits, chain
and the equivocation table are never touched. -/
theorem add_tx_admission_contract (ctx : Ctx) (st : BCState) (tx : Transaction) :
    ((addTx ctx st tx).1 = true ↔
      ((tx.tx_type = "PAY" ∨ tx.tx_type = "OPEN_REMIT" ∨ tx.tx_type = "CLAIM_REMIT" ∨
        tx.tx_type = "STAKE" ∨ tx.tx_type = "UNSTAKE")
       ∧ ctx.verify tx = true
       ∧ tx.nonce = (readAcct st.accounts (some tx.sender)).nonce + 1
       ∧ ((tx.tx_type = "PAY" ∨ tx.tx_type = "OPEN_REMIT" ∨ tx.tx_type = "STAKE") →
            tx.amount + tx.fee ≤ (readAcct st.accounts (some tx.sender)).balance)))
    ∧ ((addTx ctx st tx).1 = true →
        ((addTx ctx st tx).2.pending = st.pending ++ [tx]
         ∧ readAcct (addTx ctx st tx).2.accounts (some tx.sender)
             = { readAcct st.accounts (some tx.sender) with
                 nonce := (readAcct st.accounts (some tx.sender)).nonce + 1 }
         ∧ ∀ b, b ≠ some tx.sender →
             readAcct (addTx ctx st tx).2.accounts b = readAcct st.accounts b))
    ∧ ((addTx ctx st tx).1 = false →
        ((addTx ctx st tx).2.pending = st.pending
         ∧ ∀ b, readAcct (addTx ctx st tx).2.accounts b = readAcct st.accounts b))
    ∧ (addTx ctx st tx).2.remits = st.remits
    ∧ (addTx ctx st tx).2.chain = st.chain
    ∧ (addTx ctx st tx).2.last_signed = st.last_signed := by
  simp only [addTx]
  split_ifs with h1 h2 h3 h4
  · refine ⟨iff_of_false (by simp) (fun hc => by simp [hc.2.1] at h2),
      fun hacc => absurd hacc (by simp),
      fun _ => ⟨rfl, fun b => readAcct_ensure st.accounts (some tx.sender) b⟩, rfl, rfl, rfl⟩
  · rw [readAcct_ensure_self] at h3
    refine ⟨iff_of_false (by simp) (fun hc => h3 hc.2.2.1),
      fun hacc => absurd hacc (by simp),
      fun _ => ⟨rfl, fun b => readAcct_ensure st.accounts (some tx.sender) b⟩, rfl, rfl, rfl⟩
  · rw [readAcct_ensure_self] at h4
    refine ⟨iff_of_false (by simp) (fun hc => absurd (hc.2.2.2 h4.1) (not_le.mpr h4.2)),
      fun hacc => absurd hacc (by simp),
      fun _ => ⟨rfl, fun b => readAcct_ensure st.accounts (some tx.sender) b⟩, rfl, rfl, rfl⟩
  · rw [readAcct_ensure_self] at h3 h4
    have hv : ctx.verify tx = true := by revert h2; cases ctx.verify tx <;> simp
    have hn : tx.nonce = (readAcct st.accounts (some tx.sender)).nonce + 1 := not_not.mp h3
    have hf : (tx.tx_type = "PAY" ∨ tx.tx_type = "OPEN_REMIT" ∨ tx.tx_type = "STAKE") →
        tx.amount + tx.fee ≤ (readAcct st.accounts (some tx.sender)).balance :=
      fun htrio => le_of_not_lt (fun hlt => h4 ⟨htrio, hlt⟩)
    refine ⟨iff_of_true rfl ⟨h1, hv, hn, hf⟩, ?_, fun hrej => absurd hrej (by simp), rfl, rfl, rfl⟩
    intro _
    refine ⟨rfl, ?_, ?_⟩
    · rw [readAcct_upd_self, readAcct_ensure_self]
    · intro b hb
      rw [readAcct_upd_other _ _ _ _ hb, readAcct_ensure]
  · refine ⟨iff_of_false (by simp) (fun hc => h1 hc.1), fun hacc => absurd hacc (by simp),
      fun _ => ⟨rfl, fun b => readAcct_ensure st.accounts (some tx.sender) b⟩, rfl, rfl, rfl⟩

/-- Witness for C4: on a fresh node the signed `claimTx` (recognised type,
first nonce, no funds requirement for CLAIM_REMIT) is accepted, by the
acceptance characterisation applied at this concrete input. -/
theorem add_tx_admission_contract_witness :
    (addTx cexCtx st0cex claimTx).1 = true := by
  have h := add_tx_admission_contract cexCtx st0cex claimTx
  exact h.1.mpr ⟨by decide, rfl, by decide, fun htrio => absurd htrio (by decide)⟩

/-- Claim C10: mempool admission checks neither amount signs nor payload
shape: any correctly signed PAY with the right sequential nonce is
accepted even with a negative amount (which `_validate_amount` — applied
only during block/chain validation — would reject), and applying such a
transaction *increases* the sender's balance, since the applier debits
`amount + fee < 0`. -/
theorem add_tx_accepts_negative_amount_pay (ctx : Ctx) (st : BCState) (tx : Transaction)
    (acc : Accounts) (rem : Remits)
    (hty : tx.tx_type = "PAY")
    (hv : ctx.verify tx = true)
    (hn : tx.nonce = (readAcct st.accounts (some tx.sender)).nonce + 1)
    (hneg : tx.amount < 0)
    (hbal : tx.amount + tx.fee ≤ (readAcct st.accounts (some tx.sender)).balance)
    (hsum : tx.amount + tx.fee < 0)
    (hspace : tx.sender ≠ " REWARD_SENDER")
    (hrcpt : tx.recipient ≠ some tx.sender) :
    (addTx ctx st tx).1 = true
    ∧ (addTx ctx st tx).2.pending = st.pending ++ [tx]
    ∧ validateAmount tx = false
    ∧ applyTx ctx acc rem tx = .ok (applyTxAcc ctx acc rem tx, rem)
    ∧ (readAcct (applyTxAcc ctx acc rem tx) (some tx.sender)).balance
        = (readAcct acc (some tx.sender)).balance - (tx.amount + tx.fee)
    ∧ (readAcct acc (some tx.sender)).balance
        < (readAcct (applyTxAcc ctx acc rem tx) (some tx.sender)).balance := by
  have hA : tx.tx_type = "PAY" ∨ tx.tx_type = "OPEN_REMIT" ∨ tx.tx_type = "CLAIM_REMIT" ∨
      tx.tx_type = "STAKE" ∨ tx.tx_type = "UNSTAKE" := Or.inl hty
  have happ : applyTx ctx acc rem tx
      = .ok (updAcct (updAcct (ensureAcct acc (some tx.sender)) (some tx.sender)
               (fun a => { a with balance := a.balance - (tx.amount + tx.fee) })) tx.recipient
               (fun a => { a with balance := a.balance + tx.amount }), rem) := by
    simp only [applyTx, if_pos hty, if_pos hspace]
  have hacc : applyTxAcc ctx acc rem tx
      = updAcct (updAcct (ensureAcct acc (some tx.sender)) (some tx.sender)
          (fun a => { a with balance := a.balance - (tx.amount + tx.fee) })) tx.recipient
          (fun a => { a with balance := a.balance + tx.amount }) := by
    simp only [applyTxAcc, happ]
  have hread : (readAcct (applyTxAcc ctx acc rem tx) (some tx.sender)).balance
      = (readAcct acc (some tx.sender)).balance - (tx.amount + tx.fee) := by
    rw [hacc, readAcct_upd_other _ _ _ _ (Ne.symm hrcpt), readAcct_upd_self, readAcct_ensure_self]
  have haddTx : (addTx ctx st tx).1 = true ∧ (addTx ctx st tx).2.pending = st.pending ++ [tx] := by
    simp only [addTx, readAcct_ensure_self]
    rw [if_neg (not_not_intro hA), if_neg (by simp [hv]),
        if_neg (not_not_intro hn),
        if_neg (fun hc => absurd hbal (not_le.mpr hc.2))]
    exact ⟨rfl, rfl⟩
  refine ⟨haddTx.1, haddTx.2, ?_, ?_, hread, ?_⟩
  · have hnp : ¬(tx.amount > 0) := not_lt.mpr (le_of_lt hneg)
    simp [validateAmount, hty, hnp]
  · rw [happ, hacc]
  · rw [hread]
    omega

/-- Witness for C10: the concrete `negTx` (PAY of amount -5, fee 0,
nonce 1, signed) is admitted on a fresh node, fails the validation-time
amount check, and applying it raises the sender's balance from 0 to 5. -/
theorem add_tx_accepts_negative_amount_pay_witness :
    (addTx cexCtx st0cex negTx).1 = true
    ∧ validateAmount negTx = false
    ∧ (readAcct (applyTxAcc cexCtx [] [] negTx) (some negTx.sender)).balance = 5 := by
  have h := add_tx_accepts_negative_amount_pay cexCtx st0cex negTx [] []
    (by decide) rfl (by decide) (by decide) (by decide) (by decide) (by decide) (by decide)
  refine ⟨h.1, h.2.2.1, ?_⟩
  rw [h.2.2.2.2.1]
  decide

end MicroRemit
